import Mathlib

/-!
Verification development for the `be-vibe-share` REST backend.

The definitions below are shallow embeddings of the JavaScript source:
  * `src/services/platformDetector.js` and `src/services/thumbnailFetcher.js`
    (pure URL → platform / thumbnail functions),
  * the Mongo-backed controllers in `src/controllers/songController.js`
    (song and playlist CRUD), `userController.js`, `notificationController.js`,
    `searchController.js`, `authController.js`,
  * the route wiring in `src/routes/*.js`.

The Mongo store is modelled as lists of documents.  Document ids are natural
numbers; MongoDB's fresh ObjectId generation is modelled by taking the
successor of the largest id in use.  Every controller read sorts its result,
so the order in which documents sit in the store lists is immaterial; writes
are modelled accordingly.  Stable `.sort()` is modelled by insertion sort
(`sortByLe`), matching MongoDB's deterministic sort on distinct keys.
-/

namespace VibeShare

abbrev Id := Nat

/-- Case-folding of a string to a character list, modelling JS
`String.prototype.toLowerCase` on ASCII data. -/
def lowerStr (s : String) : List Char := s.data.map Char.toLower

/-- JS `String.prototype.includes`: `needle` occurs contiguously in `hay`. -/
def containsSub (hay needle : List Char) : Bool := decide (needle <:+: hay)

/-- `detectPlatform` from `src/services/platformDetector.js` (lines 1–31):
`!url → null`, then case-insensitive substring tests against the fixed host
table, in source order; otherwise `"Unknown"`. -/
def detectPlatform (url : String) : Option String :=
  if url = "" then none
  else
    let l := lowerStr url
    if containsSub l "youtube.com".data || containsSub l "youtu.be".data then
      some "YouTube"
    else if containsSub l "spotify.com".data then some "Spotify"
    else if containsSub l "soundcloud.com".data then some "SoundCloud"
    else if containsSub l "music.apple.com".data then some "Apple Music"
    else if containsSub l "deezer.com".data then some "Deezer"
    else if containsSub l "tidal.com".data then some "Tidal"
    else some "Unknown"

/-- The character class `[^&\n?#]` of the YouTube id patterns. -/
def ytIdChar (c : Char) : Bool :=
  !(c = '&' || c = '\n' || c = '?' || c = '#')

/-- Try one alternative of a YouTube id pattern at the current position:
if `pat` is a prefix here, the (greedy, nonempty) capture is the maximal
run of `[^&\n?#]` characters after it. -/
def matchCaptureAt (pat cs : List Char) : Option (List Char) :=
  if pat.isPrefixOf cs then
    let cap := (cs.drop pat.length).takeWhile ytIdChar
    if cap.isEmpty then none else some cap
  else none

/-- Left-to-right regex scan: at each position try the alternatives in
order, as `RegExp.prototype.match` does for an unanchored pattern. -/
def scanPat (alts : List (List Char)) : List Char → Option (List Char)
  | [] => none
  | c :: rest =>
    match alts.findSome? (fun p => matchCaptureAt p (c :: rest)) with
    | some cap => some cap
    | none => scanPat alts rest

/-- `extractYouTubeId` from `src/services/platformDetector.js` (lines 33–46):
the three regex patterns are tried over the whole string in order. -/
def extractYouTubeId (url : String) : Option String :=
  match scanPat ["youtube.com/watch?v=".data, "youtu.be/".data] url.data with
  | some cap => some ⟨cap⟩
  | none =>
    match scanPat ["youtube.com/embed/".data] url.data with
    | some cap => some ⟨cap⟩
    | none =>
      match scanPat ["youtube.com/v/".data] url.data with
      | some cap => some ⟨cap⟩
      | none => none

/-- `getYouTubeThumbnail` from `src/services/platformDetector.js`
(lines 48–50). -/
def getYouTubeThumbnail (videoId : String) : String :=
  "https://img.youtube.com/vi/" ++ videoId ++ "/mqdefault.jpg"

/-- The pure core of `fetchThumbnail` from `src/services/thumbnailFetcher.js`
(lines 4–22); the commented-out external API enrichment performs no work in
the source, so the function is pure. -/
def fetchThumbnail (url : String) (platform : Option String) : Option String :=
  if platform = some "YouTube" ||
      (platform = none && detectPlatform url = some "YouTube") then
    match extractYouTubeId url with
    | some vid => some (getYouTubeThumbnail vid)
    | none => none
  else none

/-! ## Data model (`src/models/*.js`) -/

/-- A `Song` document (`src/models/Song.js`). -/
structure Song where
  sid : Id
  playlistId : Id
  title : String
  artist : String
  url : String
  platform : Option String
  thumbnail : Option String
  position : Nat
deriving Repr, DecidableEq

/-- A `Playlist` document (`src/models/Playlist.js`). -/
structure Playlist where
  pid : Id
  userId : Id
  title : String
  description : String
  tags : List String
  likesCount : Int
  isPublic : Bool
  createdAt : Nat
deriving Repr, DecidableEq

/-- A `User` document (`src/models/User.js`). -/
structure User where
  uid : Id
  email : String
  username : String
  passwordHash : String
  bio : String
  avatarUrl : String
  playlistCount : Int
  followersCount : Int
  createdAt : Nat
deriving Repr, DecidableEq

/-- A `Notification` document (`src/models/Notification.js`); the unique
compound index is on `(userId, type, actorId, playlistId)` (line 42). -/
structure Notif where
  userId : Id
  ntype : String
  actorId : Id
  playlistId : Id
deriving Repr, DecidableEq

/-- The document database: one list of documents per collection.
`likes` and `saves` are the `(userId, playlistId)` membership edges of
`PlaylistLike` and `SavedPlaylist`. -/
structure Store where
  users : List User
  playlists : List Playlist
  songs : List Song
  likes : List (Id × Id)
  saves : List (Id × Id)
  notifications : List Notif
deriving Repr, DecidableEq

/-! ## Stable sort (models Mongo `.sort()`) -/

/-- Insert into a `le`-sorted list, before the first element it is `le` to;
ties keep the existing element later, so the overall sort is stable. -/
def insertLe {α : Type} (le : α → α → Bool) (a : α) : List α → List α
  | [] => [a]
  | b :: l => if le a b then a :: b :: l else b :: insertLe le a l

/-- Stable insertion sort. -/
def sortByLe {α : Type} (le : α → α → Bool) : List α → List α
  | [] => []
  | a :: l => insertLe le a (sortByLe le l)

/-- The comparator for Mongo `sort({position: 1})`. -/
def posLe (a b : Song) : Bool := decide (a.position ≤ b.position)

/-! ## Store primitives -/

/-- `Playlist.findById` (first document with the id). -/
def findPlaylist (s : Store) (pid : Id) : Option Playlist :=
  s.playlists.find? (fun p => p.pid == pid)

/-- `Song.find({playlistId: id})`: the songs of one playlist, in store
order. -/
def playlistSongs (s : Store) (pid : Id) : List Song :=
  s.songs.filter (fun t => t.playlistId == pid)

/-- `Song.findOne({playlistId: id}).sort({position: -1})` yields the document
with the largest `position`; `addSong`/`addSongs` use
`lastSong ? lastSong.position + 1 : 1`
(`src/controllers/songController.js` lines 83–84 and 240–241). -/
def nextPosition (s : Store) (pid : Id) : Nat :=
  match ((playlistSongs s pid).map Song.position).max? with
  | some m => m + 1
  | none => 1

/-- Fresh document id: MongoDB generates a never-before-used `ObjectId`;
modelled as one more than the largest song id in the store. -/
def freshSid (s : Store) : Id :=
  (s.songs.map Song.sid).foldr max 0 + 1

/-- The positions `1..n` — the dense ascending sequence of the spec. -/
def posRange (n : Nat) : List Nat := List.range' 1 n

/-- The body fields of a song-creation request
(`POST /playlists/:id/songs`, validated by `addSongSchema`). -/
structure SongInput where
  title : String
  artist : String
  url : String
  platform : Option String
deriving Repr, DecidableEq

/-- Build the `Song` document `addSong`/`addSongs` insert: platform is
`providedPlatform || detectPlatform(url)`, thumbnail from `fetchThumbnail`. -/
def mkSong (pid sid : Id) (pos : Nat) (it : SongInput) : Song :=
  let platform := match it.platform with
    | some pl => some pl
    | none => detectPlatform it.url
  { sid := sid, playlistId := pid, title := it.title, artist := it.artist,
    url := it.url, platform := platform,
    thumbnail := fetchThumbnail it.url platform, position := pos }

/-! ## Song controller (`src/controllers/songController.js`) -/

/-- `addSong` (lines 64–112): 404 if the playlist is missing, 403 unless the
viewer owns it, else append one song at `nextPosition`. -/
def addSong (s : Store) (viewer pid : Id) (it : SongInput) :
    Except Nat Store :=
  match findPlaylist s pid with
  | none => .error 404
  | some p =>
    if p.userId ≠ viewer then .error 403
    else
      let song := mkSong pid (freshSid s) (nextPosition s pid) it
      .ok { s with songs := s.songs ++ [song] }

/-- The renumbering loop of `deleteSong` (lines 164–167): remaining songs,
sorted by position, are rewritten to positions `k, k+1, …`. -/
def renumberFrom (k : Nat) : List Song → List Song
  | [] => []
  | t :: l => { t with position := k } :: renumberFrom (k + 1) l

/-- `deleteSong` (lines 147–177): find the song, check ownership through the
parent playlist, delete it, then renumber that playlist's remaining songs to
`1..N-1` in position order.  A dangling `playlistId` would make the JS throw
on `song.playlistId.userId` and answer 500. -/
def deleteSong (s : Store) (viewer sid : Id) : Except Nat Store :=
  match s.songs.find? (fun t => t.sid == sid) with
  | none => .error 404
  | some song =>
    match findPlaylist s song.playlistId with
    | none => .error 500
    | some p =>
      if p.userId ≠ viewer then .error 403
      else
        let s1 : Store := { s with songs := s.songs.filter (fun t => t.sid ≠ sid) }
        let renumbered := renumberFrom 1 (sortByLe posLe (playlistSongs s1 song.playlistId))
        .ok { s1 with
          songs := s1.songs.filter (fun t => t.playlistId ≠ song.playlistId) ++ renumbered }

/-- `reorderSongs` (lines 180–221): after the ownership check, verify every
referenced id belongs to the playlist, then write the client-supplied
positions unchanged (`findByIdAndUpdate(songData.id, {position})`).  Returns
`(status, store)`. -/
def reorderSongs (s : Store) (viewer pid : Id) (req : List (Id × Nat)) :
    Nat × Store :=
  match findPlaylist s pid with
  | none => (404, s)
  | some p =>
    if p.userId ≠ viewer then (403, s)
    else
      let songIds := req.map Prod.fst
      let existing := s.songs.filter (fun t => songIds.contains t.sid && t.playlistId == pid)
      if existing.length ≠ songIds.length then (400, s)
      else
        (200, { s with songs := s.songs.map (fun t =>
          match req.find? (fun r => r.fst == t.sid) with
          | some r => { t with position := r.snd }
          | none => t) })

/-- The documents created by one `addSongs` batch: the i-th song of the list
receives id `sid + i` and position `pos + i` (`position: nextPosition++`,
line 261; under the sequential execution model the i-th creation runs i-th —
the awaited thumbnail fetches may permute which request item consumes which
counter value, but the consumed id/position sets are the same). -/
def buildBatch (pid : Id) : Id → Nat → List SongInput → List Song
  | _, _, [] => []
  | sid, pos, it :: rest => mkSong pid sid pos it :: buildBatch pid (sid + 1) (pos + 1) rest

/-- `addSongs` (lines 224–279): ownership checks, then every song of the
batch is saved by an independent promise and `Promise.all` is awaited.
`saveOk` gives each save's outcome; the songs whose saves succeed are
persisted, and the call answers 201 only when all succeed (any rejection
gives the catch-all 500 with no rollback). -/
def addSongs (s : Store) (viewer pid : Id) (items : List SongInput)
    (saveOk : List Bool) : Nat × Store :=
  match findPlaylist s pid with
  | none => (404, s)
  | some p =>
    if p.userId ≠ viewer then (403, s)
    else
      let newSongs := buildBatch pid (freshSid s) (nextPosition s pid) items
      let pairs := newSongs.zip saveOk
      let saved := (pairs.filter Prod.snd).map Prod.fst
      let status := if pairs.all Prod.snd then 201 else 500
      (status, { s with songs := s.songs ++ saved })

/-! ## Notification helper (`src/controllers/notificationController.js`) -/

/-- The unique-index key match for `Notification.create`. -/
def notifKeyMatch (recipient : Id) (ty : String) (actor pid : Id) (n : Notif) : Bool :=
  n.userId == recipient && n.ntype == ty && n.actorId == actor && n.playlistId == pid

/-- `createNotification` (notificationController lines 116–142).  Returns the
controller's JS return value (never a thrown error — the outer `try/catch`
logs and returns `null`) together with the store: self-action is a no-op; a
duplicate-key insert (`err.code === 11000`, raised by Mongo exactly when a
document with the same unique key exists) is swallowed to `null`; `dbFail`
models any other store failure, which the outer catch also swallows to
`null`. -/
def createNotification (s : Store) (recipient : Id) (ty : String)
    (actor pid : Id) (dbFail : Bool) : Except String (Option Notif) × Store :=
  if recipient = actor then (.ok none, s)
  else if s.notifications.any (notifKeyMatch recipient ty actor pid) then
    (.ok none, s)
  else if dbFail then (.ok none, s)
  else
    let n : Notif := ⟨recipient, ty, actor, pid⟩
    (.ok (some n), { s with notifications := s.notifications ++ [n] })

/-! ## Playlist controller (`src/controllers/playlistController.js`,
second half of `src/controllers/songController.js` in this snapshot) -/

/-- `getPlaylist` (lines 624–682): 404 when missing, 404 when
`isPublic === false` and the viewer is absent or not the owner, otherwise the
playlist together with its songs sorted by position. -/
def getPlaylistCtrl (s : Store) (viewer : Option Id) (pid : Id) :
    Except Nat (Playlist × List Song) :=
  match findPlaylist s pid with
  | none => .error 404
  | some p =>
    if !p.isPublic &&
        (match viewer with
         | none => true
         | some v => v ≠ p.userId) then
      .error 404
    else
      .ok (p, sortByLe posLe (playlistSongs s pid))

/-- `GET /playlists/:id` as wired (`src/routes/playlists.js` line 58):
`router.get('/:id', getPlaylist)` runs without `authenticate` or
`optionalAuthenticate`, so `req.user` is never populated — the controller
always sees no viewer, whatever credential the requester presents. -/
def routeGetPlaylist (s : Store) (_requester : Option Id) (pid : Id) :
    Except Nat (Playlist × List Song) :=
  getPlaylistCtrl s none pid

/-- `$inc: {likesCount: d}` on one playlist id. -/
def bumpLikes (s : Store) (pid : Id) (d : Int) : Store :=
  { s with playlists := s.playlists.map (fun q =>
      if q.pid == pid then { q with likesCount := q.likesCount + d } else q) }

/-- `likePlaylist` (lines 821–870): 404 when the playlist is missing, 409
when this viewer's like already exists, else insert the like, increment
`likesCount` and fire the owner notification. -/
def likePlaylist (s : Store) (viewer pid : Id) : Nat × Store :=
  match findPlaylist s pid with
  | none => (404, s)
  | some p =>
    if s.likes.contains (viewer, pid) then (409, s)
    else
      let s1 : Store := { s with likes := s.likes ++ [(viewer, pid)] }
      let s2 := bumpLikes s1 pid 1
      let s3 := (createNotification s2 p.userId "playlist_like" viewer pid false).snd
      (200, s3)

/-- `unlikePlaylist` (lines 873–909): `findOneAndDelete` on the like — 404
and no change when absent; else remove it, best-effort delete the matching
`playlist_like` notification (keyed on type/actor/playlist only, line 885),
and decrement `likesCount`. -/
def unlikePlaylist (s : Store) (viewer pid : Id) : Nat × Store :=
  if !s.likes.contains (viewer, pid) then (404, s)
  else
    let s1 : Store := { s with likes := s.likes.erase (viewer, pid) }
    let notifs := s1.notifications.eraseP (fun n =>
      n.ntype == "playlist_like" && n.actorId == viewer && n.playlistId == pid)
    let s2 : Store := { s1 with notifications := notifs }
    (200, bumpLikes s2 pid (-1))

/-- `likesCount` of a playlist as a client observes it. -/
def likesCountOf (s : Store) (pid : Id) : Option Int :=
  (findPlaylist s pid).map Playlist.likesCount

/-! ## User controller (`src/controllers/userController.js`) -/

/-- The user document as serialized by `.select('-passwordHash')`: every
stored field except the password hash. -/
structure PublicUser where
  uid : Id
  email : String
  username : String
  bio : String
  avatarUrl : String
  playlistCount : Int
  followersCount : Int
  createdAt : Nat
deriving Repr, DecidableEq

/-- The `-passwordHash` projection. -/
def toPublic (u : User) : PublicUser :=
  { uid := u.uid, email := u.email, username := u.username, bio := u.bio,
    avatarUrl := u.avatarUrl, playlistCount := u.playlistCount,
    followersCount := u.followersCount, createdAt := u.createdAt }

/-- A user document with its hash blanked; two stores whose users agree
under `scrubUser` differ at most in password hashes. -/
def scrubUser (u : User) : User := { u with passwordHash := "" }

def scrubStore (s : Store) : Store := { s with users := s.users.map scrubUser }

/-- The `$or` username/bio case-insensitive regex match used by `getUsers`
and the user search (metacharacter-free queries behave as substring tests). -/
def userMatches (q : String) (u : User) : Bool :=
  containsSub (lowerStr u.username) (lowerStr q) ||
  containsSub (lowerStr u.bio) (lowerStr q)

/-- `getUsers` (userController lines 161–200):
`find(query).select('-passwordHash').skip(skip).limit(parseInt(limit)).sort({createdAt:-1})`
— Mongo applies the query, the sort, then skip/limit; the requested `limit`
is used as-is. -/
def getUsersList (s : Store) (search : Option String) (page limit : Nat) :
    List PublicUser :=
  let query : User → Bool := match search with
    | some q => userMatches q
    | none => fun _ => true
  let docs := (s.users.filter query).map toPublic
  (((sortByLe (fun a b => decide (b.createdAt ≤ a.createdAt)) docs).drop
      ((page - 1) * limit)).take limit)

/-- `getUserById` (lines 240–274): `findById(id).select('-passwordHash')`. -/
def getUserById (s : Store) (uid : Id) : Except Nat PublicUser :=
  match s.users.find? (fun u => u.uid == uid) with
  | none => .error 404
  | some u => .ok (toPublic u)

/-- `getUserByUsername` (lines 203–237):
`findOne({username}).select('-passwordHash')`. -/
def getUserByUsername (s : Store) (uname : String) : Except Nat PublicUser :=
  match s.users.find? (fun u => u.username == uname) with
  | none => .error 404
  | some u => .ok (toPublic u)

/-- `getMe` (authController lines 159–176):
`findById(req.user._id).select('-passwordHash')`. -/
def getMe (s : Store) (viewer : Id) : Except Nat PublicUser :=
  match s.users.find? (fun u => u.uid == viewer) with
  | none => .error 404
  | some u => .ok (toPublic u)

/-- `deleteUser` (userController lines 351–370): self-check, then only
`User.findByIdAndDelete(id)` — no other collection is touched. -/
def deleteUser (s : Store) (viewer target : Id) : Nat × Store :=
  if viewer ≠ target then (403, s)
  else (200, { s with users := s.users.filter (fun u => u.uid ≠ target) })

/-! ## Playlist listing (`getPlaylists`, playlistController lines 437–506) -/

/-- One item of the `GET /playlists` response (the explicit field map of
lines 529–567; the embedded owner contributes only username/avatar). -/
structure PlaylistItem where
  pid : Id
  title : String
  description : String
  tags : List String
  likesCount : Int
  songCount : Nat
  createdAt : Nat
  isPublic : Bool
  username : Option String
  userAvatar : Option String
  userId : Id
  isLiked : Bool
  isSaved : Bool
deriving Repr, DecidableEq

/-- The `$match` stage: for a requested user show private playlists only to
that same viewer, otherwise public only; optional tag containment. -/
def playlistQueryCond (viewer userParam : Option Id) (tag : Option String)
    (p : Playlist) : Bool :=
  (match userParam with
   | some u => p.userId == u && (if viewer = some u then true else p.isPublic)
   | none => p.isPublic) &&
  (match tag with
   | some t => p.tags.contains t
   | none => true)

/-- The `$sort` stage: `popular` is `likesCount` desc then `createdAt` desc;
anything else is `createdAt` desc. -/
def playlistSortLe (sort : String) (a b : Playlist) : Bool :=
  if sort = "popular" then
    decide (b.likesCount < a.likesCount) ||
      (b.likesCount == a.likesCount && decide (b.createdAt ≤ a.createdAt))
  else decide (b.createdAt ≤ a.createdAt)

/-- Build one response item: `songCount` via the `$lookup` on songs, owner
username/avatar via the `$lookup` on users (with `user.passwordHash`
projected away), `isLiked`/`isSaved` via the batched existence checks
(false with no viewer). -/
def toPlaylistItem (s : Store) (viewer : Option Id) (p : Playlist) :
    PlaylistItem :=
  let owner := s.users.find? (fun u => u.uid == p.userId)
  { pid := p.pid, title := p.title, description := p.description,
    tags := p.tags, likesCount := p.likesCount,
    songCount := (playlistSongs s p.pid).length, createdAt := p.createdAt,
    isPublic := p.isPublic,
    username := owner.map User.username,
    userAvatar := owner.map User.avatarUrl,
    userId := p.userId,
    isLiked := match viewer with
      | some v => s.likes.contains (v, p.pid)
      | none => false,
    isSaved := match viewer with
      | some v => s.saves.contains (v, p.pid)
      | none => false }

/-- `getPlaylists`: `$match`, `$sort`, `$skip((page-1)*limit)`,
`$limit(parseInt(limit))` — the requested limit is used as-is — then the
per-item assembly. -/
def getPlaylistsList (s : Store) (viewer userParam : Option Id)
    (tag : Option String) (sort : String) (page limit : Nat) :
    List PlaylistItem :=
  ((((sortByLe (playlistSortLe sort)
      (s.playlists.filter (playlistQueryCond viewer userParam tag))).drop
        ((page - 1) * limit)).take limit).map (toPlaylistItem s viewer))

/-! ## Universal search (`src/controllers/searchController.js`) -/

/-- One playlist item of the universal-search response (`playlist.toObject()`
with the owner populated as `username` only, plus the three derived
fields). -/
structure SearchPlaylist where
  pid : Id
  title : String
  description : String
  tags : List String
  likesCount : Int
  isPublic : Bool
  createdAt : Nat
  ownerUsername : Option String
  songCount : Nat
  isLiked : Bool
  isSaved : Bool
deriving Repr, DecidableEq

def toSearchPlaylist (s : Store) (viewer : Option Id) (p : Playlist) :
    SearchPlaylist :=
  { pid := p.pid, title := p.title, description := p.description,
    tags := p.tags, likesCount := p.likesCount, isPublic := p.isPublic,
    createdAt := p.createdAt,
    ownerUsername := (s.users.find? (fun u => u.uid == p.userId)).map User.username,
    songCount := (playlistSongs s p.pid).length,
    isLiked := match viewer with
      | some v => s.likes.contains (v, p.pid)
      | none => false,
    isSaved := match viewer with
      | some v => s.saves.contains (v, p.pid)
      | none => false }

/-- The playlist `$or` match of universal search: public, and title,
description or some tag contains `q` case-insensitively. -/
def searchPlaylistMatches (q : String) (p : Playlist) : Bool :=
  p.isPublic &&
    (containsSub (lowerStr p.title) (lowerStr q) ||
     containsSub (lowerStr p.description) (lowerStr q) ||
     p.tags.any (fun t => containsSub (lowerStr t) (lowerStr q)))

/-- `new RegExp('^q', 'i')` applied to a tag. -/
def tagStartsWith (q tag : String) : Bool :=
  (lowerStr q).isPrefixOf (lowerStr tag)

/-- The `tagCount` object build: first-seen order, counts incremented. -/
def bumpTag (t : String) : List (String × Nat) → List (String × Nat)
  | [] => [(t, 1)]
  | (a, n) :: rest => if a = t then (a, n + 1) :: rest else (a, n) :: bumpTag t rest

/-- The tag aggregation loop (searchController lines 136–143): every
matching tag of every matching public playlist is tallied. -/
def collectTagCounts (q : String) (pls : List Playlist) : List (String × Nat) :=
  pls.foldl (fun acc p =>
    p.tags.foldl (fun acc2 t => if tagStartsWith q t then bumpTag t acc2 else acc2) acc) []

structure SearchResults where
  users : List PublicUser
  playlists : List SearchPlaylist
  tags : List (String × Nat)
deriving Repr, DecidableEq

/-- `universalSearch` (searchController lines 29–175), without the
5-minute response cache (a cache hit replays a previous response of this
same shape): 400 under two characters, `searchLimit = min(limit, 20)`, then
the three branches gated on `type`. -/
def universalSearch (s : Store) (viewer : Option Id) (q ty : String)
    (limit offset : Nat) : Except Nat SearchResults :=
  if q.length < 2 then .error 400
  else
    let searchLimit := min limit 20
    let users :=
      if ty = "all" || ty = "users" then
        ((((sortByLe (fun a b : PublicUser => decide (b.followersCount ≤ a.followersCount))
            ((s.users.filter (userMatches q)).map toPublic)).drop offset).take searchLimit))
      else []
    let playlists :=
      if ty = "all" || ty = "playlists" then
        (((((sortByLe (fun a b : Playlist => decide (b.likesCount ≤ a.likesCount))
            (s.playlists.filter (searchPlaylistMatches q))).drop offset).take
              searchLimit).map (toSearchPlaylist s viewer)))
      else []
    let tags :=
      if ty = "all" || ty = "tags" then
        ((sortByLe (fun a b : String × Nat => decide (b.snd ≤ a.snd))
          (collectTagCounts q (s.playlists.filter (fun p =>
            p.isPublic && p.tags.any (tagStartsWith q))))).take searchLimit)
      else []
    .ok ⟨users, playlists, tags⟩

/-! ## Owner mutation sequences and the dense-position invariant -/

/-- The spec's invariant: the positions of a playlist's songs are exactly
`1..N` (as a set; the stored order is immaterial since reads sort). -/
def DensePositions (l : List Song) : Prop :=
  (l.map Song.position).Perm (posRange l.length)

instance (l : List Song) : Decidable (DensePositions l) :=
  inferInstanceAs (Decidable (List.Perm _ _))

/-- One owner-performed song mutation on a playlist. -/
inductive OwnerOp where
  | addOne (it : SongInput)
  | addMany (items : List SongInput)
  | delOne (sid : Id)
deriving Repr, DecidableEq

/-- Run one mutation; a batch is *successful* when every save succeeds. -/
def applyOp (viewer pid : Id) (s : Store) : OwnerOp → Except Nat Store
  | .addOne it => addSong s viewer pid it
  | .addMany items =>
    let r := addSongs s viewer pid items (items.map (fun _ => true))
    if r.fst = 201 then .ok r.snd else .error r.fst
  | .delOne sid => deleteSong s viewer sid

/-- Run a sequence of mutations, stopping at the first failure. -/
def applyOps (viewer pid : Id) : Store → List OwnerOp → Except Nat Store
  | s, [] => .ok s
  | s, op :: ops =>
    match applyOp viewer pid s op with
    | .ok s' => applyOps viewer pid s' ops
    | .error e => .error e

/-- `Except` success as a Bool (the controller returned normally). -/
def exceptOk {ε α : Type} : Except ε α → Bool
  | .ok _ => true
  | .error _ => false

/-- Lengths of the three universal-search result lists (0 on an error
response, which returns no items). -/
def searchLens (e : Except Nat SearchResults) : Nat × Nat × Nat :=
  match e with
  | .ok r => (r.users.length, r.playlists.length, r.tags.length)
  | .error _ => (0, 0, 0)

/-! ## Concrete sample documents and stores -/

def egAlice : User :=
  ⟨1, "alice@example.com", "alice", "hashA", "likes synths", "", 1, 0, 100⟩

def egBob : User :=
  ⟨2, "bob@example.com", "bob", "hashB", "", "", 0, 0, 101⟩

/-- Alice's private playlist. -/
def egPrivate : Playlist := ⟨10, 1, "secret mix", "", [], 0, false, 200⟩

/-- Alice's public playlist. -/
def egPublic : Playlist := ⟨11, 1, "road trip", "", ["indie"], 0, true, 201⟩

def egStore1 : Store := ⟨[egAlice, egBob], [egPrivate], [], [], [], []⟩

def egStore2 : Store := ⟨[egAlice, egBob], [egPublic], [], [], [], []⟩

/-- A store in which user 1 owns a playlist and holds a like and a save. -/
def egStoreC4 : Store :=
  ⟨[egAlice, egBob], [egPublic], [], [(1, 20)], [(1, 20)], []⟩

def egSongInputA : SongInput := ⟨"Track A", "Artist A", "https://a.example", some "Unknown"⟩

def egSongInputB : SongInput := ⟨"Track B", "Artist B", "https://b.example", some "Unknown"⟩

/-- Projection of an `Except` success value (default on error), used to name
computed success states in concrete instantiations. -/
def exceptGetD {ε α : Type} (e : Except ε α) (d : α) : α :=
  match e with
  | .ok a => a
  | .error _ => d

def egSong1 : Song :=
  ⟨100, 11, "s1", "artist", "https://x.example", some "Unknown", none, 1⟩

def egSong2 : Song :=
  ⟨101, 11, "s2", "artist", "https://y.example", some "Unknown", none, 2⟩

/-- Playlist 11 holding two songs at positions 1 and 2. -/
def egStoreSongs : Store :=
  ⟨[egAlice, egBob], [egPublic], [egSong1, egSong2], [], [], []⟩

/-- `egAlice` with a different password hash (all other fields equal). -/
def egAliceAlt : User := { egAlice with passwordHash := "a-different-hash" }

/-- `egStore2` with the owner's password hash changed and nothing else. -/
def egStore2Alt : Store := ⟨[egAliceAlt, egBob], [egPublic], [], [], [], []⟩

/-! ## Sorting lemmas -/

theorem insertLe_perm {α : Type} (le : α → α → Bool) (a : α) (l : List α) :
    (insertLe le a l).Perm (a :: l) := by
  induction l with
  | nil => simp [insertLe]
  | cons b t ih =>
    simp only [insertLe]
    split
    · exact List.Perm.refl _
    · exact (List.Perm.cons b ih).trans (List.Perm.swap a b t)

theorem sortByLe_perm {α : Type} (le : α → α → Bool) (l : List α) :
    (sortByLe le l).Perm l := by
  induction l with
  | nil => simp [sortByLe]
  | cons a t ih =>
    exact (insertLe_perm le a (sortByLe le t)).trans (ih.cons a)

/-- Sorting a list already sorted for `le` leaves it unchanged. -/
theorem sortByLe_of_pairwise {α : Type} (le : α → α → Bool) (l : List α)
    (h : l.Pairwise (fun a b => le a b = true)) : sortByLe le l = l := by
  induction l with
  | nil => rfl
  | cons a t ih =>
    rw [List.pairwise_cons] at h
    rw [sortByLe, ih h.2]
    cases t with
    | nil => rfl
    | cons b t' =>
      have hab : le a b = true := h.1 b (by simp)
      simp [insertLe, hab]

/-! ## C9 — platform detection and YouTube thumbnails -/

/-- C9: `detectPlatform` is pure and total: empty input yields `null`; the
result is `"YouTube"` exactly when the lowercased input contains
`youtube.com` or `youtu.be`, and analogously for the five other hosts in
priority order; every other non-empty input yields `"Unknown"`.  Whenever a
video id is extracted by the `watch?v=` / `youtu.be/` / `/embed/` / `/v/`
patterns the thumbnail is `https://img.youtube.com/vi/{id}/mqdefault.jpg`;
in particular `https://youtu.be/abc123` detects as YouTube with thumbnail
`https://img.youtube.com/vi/abc123/mqdefault.jpg`. -/
theorem C9_platform_detection :
    detectPlatform "" = none
  ∧ (∀ u : String, detectPlatform u = some "YouTube" ↔
      u ≠ "" ∧ (containsSub (lowerStr u) "youtube.com".data
        || containsSub (lowerStr u) "youtu.be".data) = true)
  ∧ (∀ u : String, detectPlatform u = some "Spotify" ↔
      u ≠ "" ∧ (containsSub (lowerStr u) "youtube.com".data
        || containsSub (lowerStr u) "youtu.be".data) = false
      ∧ containsSub (lowerStr u) "spotify.com".data = true)
  ∧ (∀ u : String, detectPlatform u = some "SoundCloud" ↔
      u ≠ "" ∧ (containsSub (lowerStr u) "youtube.com".data
        || containsSub (lowerStr u) "youtu.be".data) = false
      ∧ containsSub (lowerStr u) "spotify.com".data = false
      ∧ containsSub (lowerStr u) "soundcloud.com".data = true)
  ∧ (∀ u : String, detectPlatform u = some "Apple Music" ↔
      u ≠ "" ∧ (containsSub (lowerStr u) "youtube.com".data
        || containsSub (lowerStr u) "youtu.be".data) = false
      ∧ containsSub (lowerStr u) "spotify.com".data = false
      ∧ containsSub (lowerStr u) "soundcloud.com".data = false
      ∧ containsSub (lowerStr u) "music.apple.com".data = true)
  ∧ (∀ u : String, detectPlatform u = some "Deezer" ↔
      u ≠ "" ∧ (containsSub (lowerStr u) "youtube.com".data
        || containsSub (lowerStr u) "youtu.be".data) = false
      ∧ containsSub (lowerStr u) "spotify.com".data = false
      ∧ containsSub (lowerStr u) "soundcloud.com".data = false
      ∧ containsSub (lowerStr u) "music.apple.com".data = false
      ∧ containsSub (lowerStr u) "deezer.com".data = true)
  ∧ (∀ u : String, detectPlatform u = some "Tidal" ↔
      u ≠ "" ∧ (containsSub (lowerStr u) "youtube.com".data
        || containsSub (lowerStr u) "youtu.be".data) = false
      ∧ containsSub (lowerStr u) "spotify.com".data = false
      ∧ containsSub (lowerStr u) "soundcloud.com".data = false
      ∧ containsSub (lowerStr u) "music.apple.com".data = false
      ∧ containsSub (lowerStr u) "deezer.com".data = false
      ∧ containsSub (lowerStr u) "tidal.com".data = true)
  ∧ (∀ u : String, detectPlatform u = some "Unknown" ↔
      u ≠ "" ∧ (containsSub (lowerStr u) "youtube.com".data
        || containsSub (lowerStr u) "youtu.be".data) = false
      ∧ containsSub (lowerStr u) "spotify.com".data = false
      ∧ containsSub (lowerStr u) "soundcloud.com".data = false
      ∧ containsSub (lowerStr u) "music.apple.com".data = false
      ∧ containsSub (lowerStr u) "deezer.com".data = false
      ∧ containsSub (lowerStr u) "tidal.com".data = false)
  ∧ (∀ (u vid : String), extractYouTubeId u = some vid →
      fetchThumbnail u (some "YouTube") =
        some ("https://img.youtube.com/vi/" ++ vid ++ "/mqdefault.jpg"))
  ∧ detectPlatform "https://youtu.be/abc123" = some "YouTube"
  ∧ fetchThumbnail "https://youtu.be/abc123" (some "YouTube") =
      some "https://img.youtube.com/vi/abc123/mqdefault.jpg" := by
  refine ⟨rfl, ?_, ?_, ?_, ?_, ?_, ?_, ?_, ?_, by decide, by decide⟩
  all_goals
    first
    | (intro u vid h
       simp only [fetchThumbnail, getYouTubeThumbnail]
       simp [h])
    | (intro u
       by_cases hu : u = ""
       · subst hu; simp [detectPlatform]
       · simp only [detectPlatform, if_neg hu]
         split_ifs with h1 h2 h3 h4 h5 h6 <;> simp_all <;>
           (intros; simp_all))

/-- C9 witness: the general clauses applied at `https://youtu.be/abc123`. -/
theorem C9_platform_detection_witness :
    detectPlatform "https://youtu.be/abc123" = some "YouTube" ∧
    fetchThumbnail "https://youtu.be/abc123" (some "YouTube") =
      some ("https://img.youtube.com/vi/" ++ "abc123" ++ "/mqdefault.jpg") :=
  ⟨(C9_platform_detection.2.1 "https://youtu.be/abc123").mpr (by decide),
   C9_platform_detection.2.2.2.2.2.2.2.2.1 "https://youtu.be/abc123" "abc123" (by decide)⟩

/-! ## C1 — private playlist visibility through the wired route -/

/-- C1: evaluation at the failing input.  The `getPlaylist` controller by
itself serves a private playlist to its owner and hides it (404) from other
or anonymous viewers — but `GET /playlists/:id` is mounted with no
authentication middleware, so no viewer is ever identified and the owner of
a private playlist receives 404 from the actual endpoint, contradicting the
spec's visibility rule. -/
theorem C1_private_playlist_route :
    routeGetPlaylist egStore1 (some 1) 10 = .error 404
  ∧ getPlaylistCtrl egStore1 (some 1) 10 = .ok (egPrivate, [])
  ∧ getPlaylistCtrl egStore1 (some 2) 10 = .error 404
  ∧ getPlaylistCtrl egStore1 none 10 = .error 404 :=
  ⟨rfl, rfl, rfl, rfl⟩

/-! ## C4 — account deletion does not cascade -/

/-- C4 counterexample: user 1 deletes their account; the call succeeds (200)
yet their playlist, like and save records all remain in the store. -/
theorem C4_counterexample :
    (deleteUser egStoreC4 1 1).fst = 200
  ∧ ((deleteUser egStoreC4 1 1).snd.playlists.filter (fun p => p.userId == 1)) ≠ []
  ∧ ((deleteUser egStoreC4 1 1).snd.likes.filter (fun e => e.fst == 1)) ≠ []
  ∧ ((deleteUser egStoreC4 1 1).snd.saves.filter (fun e => e.fst == 1)) ≠ [] := by
  refine ⟨rfl, ?_, ?_, ?_⟩ <;> decide

/-- C4 (amended): a successful self-deletion removes only the user
document; owned playlists, likes and saves are untouched — no cascade is
performed. -/
theorem C4_deleteUser_no_cascade (s : Store) (viewer target : Id)
    (h : viewer = target) :
    (deleteUser s viewer target).fst = 200
  ∧ (deleteUser s viewer target).snd.playlists = s.playlists
  ∧ (deleteUser s viewer target).snd.likes = s.likes
  ∧ (deleteUser s viewer target).snd.saves = s.saves
  ∧ ∀ u ∈ (deleteUser s viewer target).snd.users, u.uid ≠ target := by
  subst h
  refine ⟨by simp [deleteUser], by simp [deleteUser], by simp [deleteUser],
    by simp [deleteUser], ?_⟩
  intro u hu
  simp [deleteUser, List.mem_filter] at hu
  exact hu.2

/-- C4 witness: the amended theorem applied to the concrete store. -/
theorem C4_deleteUser_no_cascade_witness :
    (deleteUser egStoreC4 1 1).fst = 200
  ∧ (deleteUser egStoreC4 1 1).snd.playlists = egStoreC4.playlists :=
  ⟨(C4_deleteUser_no_cascade egStoreC4 1 1 rfl).1,
   (C4_deleteUser_no_cascade egStoreC4 1 1 rfl).2.1⟩

/-! ## C6 — createNotification never propagates failures -/

/-- C6 counterexample: a non-duplicate store failure (`dbFail = true`) on a
cross-user notification is swallowed — `createNotification` returns normally
with `null` and an unchanged store, instead of propagating the failure as
the claim states. -/
theorem C6_counterexample :
    (createNotification egStore2 2 "playlist_like" 1 11 true).fst = Except.ok none
  ∧ exceptOk (createNotification egStore2 2 "playlist_like" 1 11 true).fst = true
  ∧ (createNotification egStore2 2 "playlist_like" 1 11 true).snd = egStore2 :=
  ⟨rfl, rfl, rfl⟩

/-- C6 (amended): `createNotification` is a no-op returning `null` when
recipient = actor; otherwise it inserts when no document with the uniqueness
key exists and the store does not fail; a duplicate-key outcome is swallowed
to `null`; and *every* other failure is likewise caught, logged and
swallowed to `null` — the function always returns normally, propagating
nothing. -/
theorem C6_createNotification_swallows (s : Store) (recipient : Id)
    (ty : String) (actor pid : Id) (dbFail : Bool) :
    (recipient = actor →
      createNotification s recipient ty actor pid dbFail = (.ok none, s))
  ∧ (recipient ≠ actor →
      s.notifications.any (notifKeyMatch recipient ty actor pid) = true →
      createNotification s recipient ty actor pid dbFail = (.ok none, s))
  ∧ (recipient ≠ actor →
      s.notifications.any (notifKeyMatch recipient ty actor pid) = false →
      dbFail = true →
      createNotification s recipient ty actor pid dbFail = (.ok none, s))
  ∧ (recipient ≠ actor →
      s.notifications.any (notifKeyMatch recipient ty actor pid) = false →
      dbFail = false →
      createNotification s recipient ty actor pid dbFail =
        (.ok (some ⟨recipient, ty, actor, pid⟩),
         { s with notifications := s.notifications ++ [⟨recipient, ty, actor, pid⟩] }))
  ∧ exceptOk (createNotification s recipient ty actor pid dbFail).fst = true := by
  refine ⟨?_, ?_, ?_, ?_, ?_⟩
  · intro h; simp [createNotification, h]
  · intro h h2; simp [createNotification, h, h2]
  · intro h h2 h3; simp [createNotification, h, h2, h3]
  · intro h h2 h3; simp [createNotification, h, h2, h3]
  · unfold createNotification
    split_ifs <;> rfl

/-- C6 witness: the amended theorem's failure-swallowing clause applied at a
concrete store. -/
theorem C6_createNotification_swallows_witness :
    createNotification egStore2 2 "playlist_like" 1 11 true =
      (.ok none, egStore2) :=
  (C6_createNotification_swallows egStore2 2 "playlist_like" 1 11 true).2.2.1
    (by decide) rfl rfl

/-! ## C3 — like/unlike contract -/

theorem createNotification_snd_playlists (s : Store) (r : Id) (ty : String)
    (a pid : Id) (b : Bool) :
    (createNotification s r ty a pid b).snd.playlists = s.playlists := by
  unfold createNotification
  split_ifs <;> rfl

theorem createNotification_snd_likes (s : Store) (r : Id) (ty : String)
    (a pid : Id) (b : Bool) :
    (createNotification s r ty a pid b).snd.likes = s.likes := by
  unfold createNotification
  split_ifs <;> rfl

theorem find?_pid_map_bump (l : List Playlist) (pid : Id) (d : Int) :
    (l.map (fun q => if q.pid == pid then { q with likesCount := q.likesCount + d } else q)).find?
        (fun p => p.pid == pid)
      = (l.find? (fun p => p.pid == pid)).map
          (fun q => { q with likesCount := q.likesCount + d }) := by
  induction l with
  | nil => rfl
  | cons a t ih =>
    by_cases h : a.pid == pid
    · simp [List.find?, h]
    · have h2 : ((if a.pid == pid then { a with likesCount := a.likesCount + d } else a).pid == pid) = false := by
        simp only [if_neg h]
        simpa using h
      simp only [List.map_cons, List.find?_cons, h2, Bool.false_eq_true, if_false]
      simp only [List.find?_cons, show (a.pid == pid) = false from by simpa using h,
        Bool.false_eq_true, if_false]
      exact ih

theorem likesCountOf_bumpLikes (s : Store) (pid : Id) (d : Int) :
    likesCountOf (bumpLikes s pid d) pid
      = (likesCountOf s pid).map (fun x => x + d) := by
  unfold likesCountOf bumpLikes findPlaylist
  simp only [find?_pid_map_bump, Option.map_map]
  rfl

theorem likesCountOf_congr (s1 s2 : Store) (pid : Id)
    (h : s1.playlists = s2.playlists) : likesCountOf s1 pid = likesCountOf s2 pid := by
  unfold likesCountOf findPlaylist
  rw [h]

/-- C3: a second like by the same viewer on the same (existing) playlist
answers 409 and leaves the store unchanged; an unlike with no like present
answers 404 and leaves the store (hence `likesCount`) unchanged; a
successful like followed by an unlike by the same viewer answers 200 twice
and restores the playlist's `likesCount` exactly. -/
theorem C3_like_unlike_contract (s : Store) (viewer pid : Id) (p : Playlist)
    (hp : findPlaylist s pid = some p) :
    ((viewer, pid) ∈ s.likes → likePlaylist s viewer pid = (409, s))
  ∧ ((viewer, pid) ∉ s.likes → unlikePlaylist s viewer pid = (404, s))
  ∧ ((viewer, pid) ∉ s.likes →
      (likePlaylist s viewer pid).fst = 200
      ∧ (unlikePlaylist (likePlaylist s viewer pid).snd viewer pid).fst = 200
      ∧ likesCountOf (unlikePlaylist (likePlaylist s viewer pid).snd viewer pid).snd pid
          = likesCountOf s pid) := by
  refine ⟨?_, ?_, ?_⟩
  · intro h
    simp [likePlaylist, hp, h]
  · intro h
    simp [unlikePlaylist, h]
  · intro h
    have hfst : (likePlaylist s viewer pid).fst = 200 := by
      simp [likePlaylist, hp, h]
    have hlikes : (likePlaylist s viewer pid).snd.likes = s.likes ++ [(viewer, pid)] := by
      simp [likePlaylist, hp, h, createNotification_snd_likes, bumpLikes]
    have hpls : (likePlaylist s viewer pid).snd.playlists
        = (bumpLikes { s with likes := s.likes ++ [(viewer, pid)] } pid 1).playlists := by
      simp [likePlaylist, hp, h, createNotification_snd_playlists, bumpLikes]
    have hc : (viewer, pid) ∈ (likePlaylist s viewer pid).snd.likes := by
      rw [hlikes]; simp
    refine ⟨hfst, by simp [unlikePlaylist, hc], ?_⟩
    have hstep : (unlikePlaylist (likePlaylist s viewer pid).snd viewer pid).snd
        = bumpLikes
            { (likePlaylist s viewer pid).snd with
              likes := (likePlaylist s viewer pid).snd.likes.erase (viewer, pid),
              notifications := ((likePlaylist s viewer pid).snd.notifications.eraseP (fun n =>
                n.ntype == "playlist_like" && n.actorId == viewer && n.playlistId == pid)) }
            pid (-1) := by
      simp [unlikePlaylist, hc]
    rw [hstep, likesCountOf_bumpLikes]
    have hmid : likesCountOf
        { (likePlaylist s viewer pid).snd with
          likes := (likePlaylist s viewer pid).snd.likes.erase (viewer, pid),
          notifications := ((likePlaylist s viewer pid).snd.notifications.eraseP (fun n =>
            n.ntype == "playlist_like" && n.actorId == viewer && n.playlistId == pid)) } pid
        = (likesCountOf s pid).map (fun x => x + 1) := by
      rw [likesCountOf_congr _ (bumpLikes { s with likes := s.likes ++ [(viewer, pid)] } pid 1) pid (by simpa using hpls)]
      rw [likesCountOf_bumpLikes]
      have hsame : likesCountOf { s with likes := s.likes ++ [(viewer, pid)] } pid
          = likesCountOf s pid := likesCountOf_congr _ _ _ rfl
      rw [hsame]
    rw [hmid]
    cases likesCountOf s pid with
    | none => rfl
    | some x => simp

/-- C3 witness: the contract applied at a concrete one-playlist store. -/
theorem C3_like_unlike_contract_witness :
    (likePlaylist egStore2 2 11).fst = 200
  ∧ (unlikePlaylist (likePlaylist egStore2 2 11).snd 2 11).fst = 200
  ∧ likesCountOf (unlikePlaylist (likePlaylist egStore2 2 11).snd 2 11).snd 11
      = likesCountOf egStore2 11 :=
  (C3_like_unlike_contract egStore2 2 11 egPublic rfl).2.2 (by decide)

/-! ## C5 — batch add is not all-or-nothing -/

theorem buildBatch_length (pid : Id) (sid pos : Nat) (items : List SongInput) :
    (buildBatch pid sid pos items).length = items.length := by
  induction items generalizing sid pos with
  | nil => rfl
  | cons a t ih => simp [buildBatch, ih]

theorem zip_all_snd {α : Type} (l : List α) (ok : List Bool)
    (h : l.length = ok.length) :
    ((l.zip ok).all Prod.snd) = ok.all (fun b => b) := by
  induction l generalizing ok with
  | nil => cases ok with
    | nil => rfl
    | cons b tb => simp at h
  | cons a t ih =>
    cases ok with
    | nil => simp at h
    | cons b tb =>
      simp only [List.zip_cons_cons, List.all_cons]
      rw [ih tb (by simpa using h)]

theorem zip_filter_snd_all {α : Type} (l : List α) (ok : List Bool)
    (h : l.length = ok.length) (hall : (l.zip ok).all Prod.snd = true) :
    (((l.zip ok).filter Prod.snd).map Prod.fst) = l := by
  rw [List.filter_eq_self.mpr (by
    intro a ha
    exact (List.all_eq_true.mp hall) a ha)]
  exact List.map_fst_zip l ok (le_of_eq h)

/-- C5 counterexample: a two-song batch whose second save fails answers 500
(the call fails) while the first song is persisted — a proper non-empty
subset of the batch is stored, the outcome the claim excludes. -/
theorem C5_counterexample :
    (addSongs egStore2 1 11 [egSongInputA, egSongInputB] [true, false]).fst = 500
  ∧ (playlistSongs (addSongs egStore2 1 11 [egSongInputA, egSongInputB] [true, false]).snd 11).length = 1
  ∧ playlistSongs (addSongs egStore2 1 11 [egSongInputA, egSongInputB] [true, false]).snd 11 ≠ [] := by
  refine ⟨by decide, by decide, by decide⟩

/-- C5 (amended): when every individual save succeeds the batch answers 201
with every song persisted; when any save fails the batch answers 500, but
the songs whose saves succeeded remain persisted — partial application is a
possible outcome (no transaction/rollback). -/
theorem C5_addSongs_batch (s : Store) (viewer pid : Id) (p : Playlist)
    (items : List SongInput) (saveOk : List Bool)
    (hp : findPlaylist s pid = some p) (hv : p.userId = viewer)
    (hl : saveOk.length = items.length) :
    (saveOk.all (fun b => b) = true →
      addSongs s viewer pid items saveOk
        = (201, { s with songs :=
            s.songs ++ buildBatch pid (freshSid s) (nextPosition s pid) items }))
  ∧ (saveOk.all (fun b => b) = false →
      (addSongs s viewer pid items saveOk).fst = 500)
  ∧ (addSongs s viewer pid items saveOk).snd.songs
      = s.songs ++ (((buildBatch pid (freshSid s) (nextPosition s pid) items).zip
          saveOk).filter Prod.snd).map Prod.fst := by
  have hlen : (buildBatch pid (freshSid s) (nextPosition s pid) items).length
      = saveOk.length := by rw [buildBatch_length, hl]
  have hmain : addSongs s viewer pid items saveOk =
      ((if ((buildBatch pid (freshSid s) (nextPosition s pid) items).zip saveOk).all Prod.snd
          then 201 else 500),
        { s with songs := s.songs ++
            ((((buildBatch pid (freshSid s) (nextPosition s pid) items).zip
              saveOk).filter Prod.snd).map Prod.fst) }) := by
    simp [addSongs, hp, hv]
  refine ⟨?_, ?_, ?_⟩
  · intro hall
    rw [hmain]
    have h1 : ((buildBatch pid (freshSid s) (nextPosition s pid) items).zip saveOk).all Prod.snd = true := by
      rw [zip_all_snd _ _ hlen]; exact hall
    rw [if_pos h1, zip_filter_snd_all _ _ hlen h1]
  · intro hfail
    rw [hmain]
    have h1 : ((buildBatch pid (freshSid s) (nextPosition s pid) items).zip saveOk).all Prod.snd = false := by
      rw [zip_all_snd _ _ hlen]; exact hfail
    simp [h1]
  · rw [hmain]

/-- C5 witness: an all-successful two-song batch at a concrete store. -/
theorem C5_addSongs_batch_witness :
    addSongs egStore2 1 11 [egSongInputA, egSongInputB] [true, true]
      = (201,
         { egStore2 with
           songs := egStore2.songs ++
             buildBatch 11 (freshSid egStore2) (nextPosition egStore2 11)
               [egSongInputA, egSongInputB] }) :=
  (C5_addSongs_batch egStore2 1 11 egPublic [egSongInputA, egSongInputB]
    [true, true] rfl rfl rfl).1 rfl

/-! ## C8 — limit caps -/

/-- C8 counterexample: `GET /users` with a requested `limit` of 60 returns
all 60 stored users — there is no server-side cap of 50 on the user
listing. -/
theorem C8_counterexample :
    50 < (getUsersList
      ⟨(List.range 60).map (fun i => ⟨i, "", "u", "h", "", "", 0, 0, i⟩),
        [], [], [], [], []⟩ none 1 60).length := by
  decide

/-- C8 (amended): universal search truncates each of its three result lists
to `min(limit, 20)` — at most 20 items regardless of the requested limit —
while `GET /users` and `GET /playlists` apply the client-requested `limit`
as-is: their page sizes are bounded only by the requested value, with no
server-enforced cap of 50. -/
theorem C8_limit_caps (s : Store) (viewer : Option Id) (q ty : String)
    (limit offset : Nat) (search : Option String) (userParam : Option Id)
    (tag : Option String) (sort : String) (page : Nat) :
    (searchLens (universalSearch s viewer q ty limit offset)).fst ≤ 20
  ∧ (searchLens (universalSearch s viewer q ty limit offset)).snd.fst ≤ 20
  ∧ (searchLens (universalSearch s viewer q ty limit offset)).snd.snd ≤ 20
  ∧ (getUsersList s search page limit).length ≤ limit
  ∧ (getPlaylistsList s viewer userParam tag sort page limit).length ≤ limit := by
  refine ⟨?_, ?_, ?_, ?_, ?_⟩
  · unfold universalSearch searchLens
    split_ifs <;> simp [List.length_take]
  · unfold universalSearch searchLens
    split_ifs <;> simp [List.length_take]
  · unfold universalSearch searchLens
    split_ifs <;> simp [List.length_take]
  · unfold getUsersList
    simp only [List.length_take]
    omega
  · unfold getPlaylistsList
    simp only [List.length_map, List.length_take]
    omega

/-! ## Position arithmetic -/

theorem max?_append_singleton (l : List Nat) (a : Nat) :
    (l ++ [a]).max? = some (match l.max? with
      | none => a
      | some m => max m a) := by
  cases l with
  | nil => rfl
  | cons b t =>
    show ((b :: (t ++ [a])).max?) = _
    simp only [List.max?, List.foldl_append, List.foldl_cons, List.foldl_nil]

theorem max?_posRange (n : Nat) :
    (posRange n).max? = if n = 0 then none else some n := by
  induction n with
  | zero => rfl
  | succ m ih =>
    unfold posRange at ih ⊢
    rw [List.range'_concat, max?_append_singleton, ih]
    cases m with
    | zero => simp
    | succ k =>
      simp only [Nat.succ_ne_zero, if_false, if_neg (Nat.succ_ne_zero _)]
      have : max (k + 1) (1 + 1 * (k + 1)) = k + 1 + 1 := by omega
      rw [this]

theorem natList_max?_char (l : List Nat) (m : Nat) :
    l.max? = some m ↔ m ∈ l ∧ ∀ b ∈ l, b ≤ m :=
  List.max?_eq_some_iff (fun a => Nat.le_refl a) (fun a b => by omega)
    (fun a b c => by omega)

theorem natList_max?_perm (l1 l2 : List Nat) (h : l1.Perm l2) :
    l1.max? = l2.max? := by
  cases h2 : l2.max? with
  | none =>
    rw [List.max?_eq_none_iff] at h2 ⊢
    subst h2
    exact h.eq_nil
  | some m =>
    rw [natList_max?_char] at h2
    rw [natList_max?_char]
    exact ⟨h.mem_iff.mpr h2.1, fun b hb => h2.2 b (h.mem_iff.mp hb)⟩

theorem nextPosition_of_perm (s : Store) (pid : Id) (n : Nat)
    (h : ((playlistSongs s pid).map Song.position).Perm (posRange n)) :
    nextPosition s pid = n + 1 := by
  unfold nextPosition
  rw [natList_max?_perm _ _ h, max?_posRange]
  cases n with
  | zero => rfl
  | succ m => simp

theorem nextPosition_of_posmap (s : Store) (pid : Id) (n : Nat)
    (h : (playlistSongs s pid).map Song.position = posRange n) :
    nextPosition s pid = n + 1 :=
  nextPosition_of_perm s pid n (h ▸ List.Perm.refl _)

theorem posRange_concat (n : Nat) : posRange (n + 1) = posRange n ++ [n + 1] := by
  unfold posRange
  rw [List.range'_concat]
  have h1 : 1 + 1 * n = n + 1 := by omega
  rw [h1]

/-! ## Effect of addSong -/

theorem addSong_eq (s : Store) (viewer pid : Id) (p : Playlist) (it : SongInput)
    (hp : findPlaylist s pid = some p) (hv : p.userId = viewer) :
    addSong s viewer pid it
      = .ok { s with songs :=
          s.songs ++ [mkSong pid (freshSid s) (nextPosition s pid) it] } := by
  simp [addSong, hp, hv]

theorem playlistSongs_append (s : Store) (pid : Id) (l : List Song) :
    playlistSongs { s with songs := s.songs ++ l } pid
      = playlistSongs s pid ++ l.filter (fun t => t.playlistId == pid) := by
  unfold playlistSongs
  exact List.filter_append _ _

theorem mkSong_playlistId (pid sid : Id) (pos : Nat) (it : SongInput) :
    (mkSong pid sid pos it).playlistId = pid := rfl

theorem mkSong_position (pid sid : Id) (pos : Nat) (it : SongInput) :
    (mkSong pid sid pos it).position = pos := rfl

/-- Core of C2, first half: folding `addSong` over a list of inputs from any
state whose positions read exactly `1..n` succeeds and extends the playlist
to positions `1..n+len`, appending the requested titles in order. -/
theorem addSeq (viewer pid : Id) (p : Playlist) (hv : p.userId = viewer) :
    ∀ (inputs : List SongInput) (s : Store) (n : Nat),
      findPlaylist s pid = some p →
      (playlistSongs s pid).map Song.position = posRange n →
      ∃ s', applyOps viewer pid s (inputs.map OwnerOp.addOne) = .ok s'
        ∧ findPlaylist s' pid = some p
        ∧ (playlistSongs s' pid).map Song.position = posRange (n + inputs.length)
        ∧ (playlistSongs s' pid).map Song.title
            = (playlistSongs s pid).map Song.title ++ inputs.map SongInput.title := by
  intro inputs
  induction inputs with
  | nil =>
    intro s n hp hmap
    exact ⟨s, rfl, hp, by simpa using hmap, by simp⟩
  | cons it rest ih =>
    intro s n hp hmap
    have hstep : applyOp viewer pid s (OwnerOp.addOne it)
        = .ok { s with songs :=
            s.songs ++ [mkSong pid (freshSid s) (nextPosition s pid) it] } :=
      addSong_eq s viewer pid p it hp hv
    have hp' : findPlaylist { s with songs :=
        s.songs ++ [mkSong pid (freshSid s) (nextPosition s pid) it] } pid = some p := hp
    have hps : playlistSongs { s with songs :=
          s.songs ++ [mkSong pid (freshSid s) (nextPosition s pid) it] } pid
        = playlistSongs s pid ++ [mkSong pid (freshSid s) (nextPosition s pid) it] := by
      rw [playlistSongs_append]
      simp [mkSong_playlistId]
    have hmap' : (playlistSongs { s with songs :=
          s.songs ++ [mkSong pid (freshSid s) (nextPosition s pid) it] } pid).map Song.position
        = posRange (n + 1) := by
      rw [hps, List.map_append, hmap, nextPosition_of_posmap s pid n hmap]
      simp [mkSong_position, posRange_concat]
    obtain ⟨s', hs', hp'', hmap'', htitle''⟩ :=
      ih { s with songs := s.songs ++ [mkSong pid (freshSid s) (nextPosition s pid) it] }
        (n + 1) hp' hmap'
    refine ⟨s', ?_, hp'', ?_, ?_⟩
    · simp only [List.map_cons, applyOps, hstep]
      exact hs'
    · rw [hmap'']
      congr 1
      simp only [List.length_cons]
      omega
    · rw [htitle'', hps]
      simp [mkSong]

/-! ## Effect of deleteSong -/

theorem renumberFrom_map_position (k : Nat) (l : List Song) :
    (renumberFrom k l).map Song.position = List.range' k l.length := by
  induction l generalizing k with
  | nil => rfl
  | cons t l ih => simp [renumberFrom, List.range'_succ, ih]

theorem renumberFrom_map_sid (k : Nat) (l : List Song) :
    (renumberFrom k l).map Song.sid = l.map Song.sid := by
  induction l generalizing k with
  | nil => rfl
  | cons t l ih => simp [renumberFrom, ih]

theorem renumberFrom_length (k : Nat) (l : List Song) :
    (renumberFrom k l).length = l.length := by
  induction l generalizing k with
  | nil => rfl
  | cons t l ih => simp [renumberFrom, ih]

theorem renumberFrom_playlistId (k : Nat) (l : List Song) (pid : Id)
    (h : ∀ t ∈ l, t.playlistId = pid) :
    ∀ t ∈ renumberFrom k l, t.playlistId = pid := by
  induction l generalizing k with
  | nil => intro t ht; cases ht
  | cons b l ih =>
    intro t ht
    rcases List.mem_cons.mp ht with h1 | h1
    · subst h1
      exact h b (by simp)
    · exact ih (k + 1) (fun x hx => h x (by simp [hx])) t h1

theorem pairwise_posLe_of_posmap (l : List Song) (n : Nat)
    (h : l.map Song.position = posRange n) :
    l.Pairwise (fun a b => posLe a b = true) := by
  have hp : (l.map Song.position).Pairwise (· ≤ ·) := by
    rw [h]
    exact (List.pairwise_lt_range' 1 n).imp le_of_lt
  rw [List.pairwise_map] at hp
  exact hp.imp (fun hab => by simpa [posLe] using hab)

theorem length_filter_sid_ne (l : List Song) (a : Song)
    (hn : (l.map Song.sid).Nodup) (ha : a ∈ l) :
    (l.filter (fun t => t.sid ≠ a.sid)).length + 1 = l.length := by
  induction l with
  | nil => cases ha
  | cons b t ih =>
    rw [List.map_cons, List.nodup_cons] at hn
    rcases List.mem_cons.mp ha with h | h
    · rw [h]
      rw [List.filter_cons]
      have hcond : (decide (b.sid ≠ b.sid)) = false := by simp
      rw [hcond]
      simp only [Bool.false_eq_true, if_false]
      have ht : t.filter (fun x => decide (x.sid ≠ b.sid)) = t := by
        apply List.filter_eq_self.mpr
        intro x hx
        simp only [ne_eq, decide_eq_true_eq]
        intro he
        apply hn.1
        rw [← he]
        exact List.mem_map_of_mem Song.sid hx
      rw [ht]
      simp
    · have hba : (b.sid ≠ a.sid) := by
        intro he
        apply hn.1
        rw [he]
        exact List.mem_map_of_mem Song.sid h
      have hih := ih hn.2 h
      rw [List.filter_cons]
      have hcond : (decide (b.sid ≠ a.sid)) = true := by simp [hba]
      rw [hcond]
      simp only [if_true, List.length_cons]
      omega

theorem deleteSong_eq (s : Store) (viewer d : Id) (song : Song) (p : Playlist)
    (hf : s.songs.find? (fun t => t.sid == d) = some song)
    (hpl : findPlaylist s song.playlistId = some p) (hv : p.userId = viewer) :
    deleteSong s viewer d = .ok
      { s with songs :=
          ((s.songs.filter (fun t => t.sid ≠ d)).filter
              (fun t => t.playlistId ≠ song.playlistId))
            ++ renumberFrom 1 (sortByLe posLe
                (playlistSongs { s with songs := s.songs.filter (fun t => t.sid ≠ d) }
                  song.playlistId)) } := by
  simp [deleteSong, hf, hpl, hv]

/-- Inner group of the delete rewrite: the surviving songs of the target
playlist are the original ones minus the deleted id. -/
theorem playlistSongs_filter_sid (s : Store) (d : Id) (grp : Id) :
    playlistSongs { s with songs := s.songs.filter (fun t => t.sid ≠ d) } grp
      = (playlistSongs s grp).filter (fun t => t.sid ≠ d) := by
  unfold playlistSongs
  rw [List.filter_filter, List.filter_filter]
  exact List.filter_congr (fun x _ => Bool.and_comm _ _)

theorem playlistSongs_after_delete (s : Store) (d : Id) (grp : Id) :
    playlistSongs
      { s with
        songs :=
          ((s.songs.filter (fun t => t.sid ≠ d)).filter (fun t => t.playlistId ≠ grp))
            ++ renumberFrom 1 (sortByLe posLe
                (playlistSongs { s with songs := s.songs.filter (fun t => t.sid ≠ d) } grp)) }
      grp
      = renumberFrom 1 (sortByLe posLe
          ((playlistSongs s grp).filter (fun t => t.sid ≠ d))) := by
  rw [playlistSongs_filter_sid]
  show List.filter _ (_ ++ _) = _
  rw [List.filter_append]
  have h1 : ((s.songs.filter (fun t => t.sid ≠ d)).filter
      (fun t => t.playlistId ≠ grp)).filter (fun t => t.playlistId == grp) = [] := by
    apply List.filter_eq_nil_iff.mpr
    intro x hx
    have := List.of_mem_filter hx
    simp only [ne_eq, decide_eq_true_eq] at this
    simp [this]
  have hall : ∀ t ∈ sortByLe posLe ((playlistSongs s grp).filter (fun t => t.sid ≠ d)),
      t.playlistId = grp := by
    intro t ht
    have htmem := (sortByLe_perm posLe _).mem_iff.mp ht
    have htm2 : t ∈ playlistSongs s grp := List.mem_of_mem_filter htmem
    simp only [playlistSongs] at htm2
    have := List.of_mem_filter htm2
    simpa using this
  have h2 : (renumberFrom 1 (sortByLe posLe
        ((playlistSongs s grp).filter (fun t => t.sid ≠ d)))).filter
      (fun t => t.playlistId == grp)
      = renumberFrom 1 (sortByLe posLe
        ((playlistSongs s grp).filter (fun t => t.sid ≠ d))) := by
    apply List.filter_eq_self.mpr
    intro x hx
    have hpl := renumberFrom_playlistId 1
      (sortByLe posLe ((playlistSongs s grp).filter (fun t => t.sid ≠ d))) grp hall x hx
    simp [hpl]
  rw [h1, h2, List.nil_append]

/-! ## C2 — positions 1..N on add, renumber on delete -/

/-- C2: starting from an empty playlist, N successful owner `addSong` calls
store positions exactly `1..N` in insertion order (each new song takes
`lastSong.position + 1`, or `1` on an empty playlist); and a successful
`deleteSong` of the song with id `d` from a playlist holding positions
`1..N` leaves the remaining songs at positions exactly `1..N-1` with their
relative order (the id sequence) preserved. -/
theorem C2_positions_add_delete (viewer pid : Id) :
    (∀ (s : Store) (p : Playlist) (inputs : List SongInput),
      findPlaylist s pid = some p → p.userId = viewer →
      playlistSongs s pid = [] →
      ∃ s', applyOps viewer pid s (inputs.map OwnerOp.addOne) = .ok s'
        ∧ (playlistSongs s' pid).map Song.position = posRange inputs.length
        ∧ (playlistSongs s' pid).map Song.title = inputs.map SongInput.title)
  ∧ (∀ (s : Store) (p : Playlist) (song : Song) (d : Id) (N : Nat),
      s.songs.find? (fun t => t.sid == d) = some song →
      findPlaylist s song.playlistId = some p → p.userId = viewer →
      song.playlistId = pid →
      (playlistSongs s pid).map Song.position = posRange N →
      ((playlistSongs s pid).map Song.sid).Nodup →
      ∃ s', deleteSong s viewer d = .ok s'
        ∧ (playlistSongs s' pid).map Song.position = posRange (N - 1)
        ∧ (playlistSongs s' pid).map Song.sid
            = ((playlistSongs s pid).map Song.sid).filter (fun x => x ≠ d)) := by
  constructor
  · intro s p inputs hp hv h0
    obtain ⟨s', hs', _, hmap, htitle⟩ :=
      addSeq viewer pid p hv inputs s 0 hp (by simp [h0, posRange])
    exact ⟨s', hs', by simpa using hmap, by simpa [h0] using htitle⟩
  · intro s p song d N hf hpl hv hpid hmap hnodup
    have hsid : song.sid = d := by
      have := List.find?_some hf
      simpa using this
    have hmem : song ∈ playlistSongs s pid := by
      have hms : song ∈ s.songs := List.mem_of_find?_eq_some hf
      simp only [playlistSongs, List.mem_filter]
      exact ⟨hms, by simp [hpid]⟩
    have hN : (playlistSongs s pid).length = N := by
      have := congrArg List.length hmap
      simpa [posRange] using this
    have hcount := length_filter_sid_ne (playlistSongs s pid) song hnodup hmem
    refine ⟨_, deleteSong_eq s viewer d song p hf hpl hv, ?_, ?_⟩
    · rw [hpid, playlistSongs_after_delete s d pid]
      have hsorted : sortByLe posLe ((playlistSongs s pid).filter (fun t => t.sid ≠ d))
          = (playlistSongs s pid).filter (fun t => t.sid ≠ d) := by
        apply sortByLe_of_pairwise
        exact (pairwise_posLe_of_posmap _ N hmap).sublist (List.filter_sublist _)
      rw [hsorted, renumberFrom_map_position]
      have hlen : ((playlistSongs s pid).filter (fun t => t.sid ≠ d)).length = N - 1 := by
        rw [hsid] at hcount
        omega
      rw [hlen]
      rfl
    · rw [hpid, playlistSongs_after_delete s d pid]
      have hsorted : sortByLe posLe ((playlistSongs s pid).filter (fun t => t.sid ≠ d))
          = (playlistSongs s pid).filter (fun t => t.sid ≠ d) := by
        apply sortByLe_of_pairwise
        exact (pairwise_posLe_of_posmap _ N hmap).sublist (List.filter_sublist _)
      rw [hsorted, renumberFrom_map_sid]
      rw [List.filter_map]
      rfl

/-- C2 witness: adding two songs to the empty playlist 11 yields positions
`[1, 2]` and the two titles in insertion order. -/
theorem C2_positions_add_delete_witness :
    (playlistSongs (exceptGetD
        (applyOps 1 11 egStore2 ([egSongInputA, egSongInputB].map OwnerOp.addOne))
        egStore2) 11).map Song.position = posRange 2
  ∧ (playlistSongs (exceptGetD
        (applyOps 1 11 egStore2 ([egSongInputA, egSongInputB].map OwnerOp.addOne))
        egStore2) 11).map Song.title
      = [egSongInputA, egSongInputB].map SongInput.title := by
  obtain ⟨s', h1, h2, h3⟩ := (C2_positions_add_delete 1 11).1 egStore2 egPublic
    [egSongInputA, egSongInputB] rfl rfl rfl
  have hget : exceptGetD
      (applyOps 1 11 egStore2 ([egSongInputA, egSongInputB].map OwnerOp.addOne))
      egStore2 = s' := by
    rw [h1]
    rfl
  rw [hget]
  exact ⟨h2, h3⟩

/-! ## C7 — the dense invariant under owner mutations -/

theorem mkSong_sid (pid sid : Id) (pos : Nat) (it : SongInput) :
    (mkSong pid sid pos it).sid = sid := rfl

theorem buildBatch_map_position (pid : Id) (sid pos : Nat) (items : List SongInput) :
    (buildBatch pid sid pos items).map Song.position = List.range' pos items.length := by
  induction items generalizing sid pos with
  | nil => rfl
  | cons a t ih => simp [buildBatch, List.range'_succ, ih, mkSong_position]

theorem buildBatch_map_sid (pid : Id) (sid pos : Nat) (items : List SongInput) :
    (buildBatch pid sid pos items).map Song.sid = List.range' sid items.length := by
  induction items generalizing sid pos with
  | nil => rfl
  | cons a t ih => simp [buildBatch, List.range'_succ, ih, mkSong_sid]

theorem buildBatch_playlistId (pid : Id) (sid pos : Nat) (items : List SongInput) :
    ∀ t ∈ buildBatch pid sid pos items, t.playlistId = pid := by
  induction items generalizing sid pos with
  | nil => intro t ht; cases ht
  | cons a rest ih =>
    intro t ht
    rcases List.mem_cons.mp ht with h1 | h1
    · rw [h1]
      rfl
    · exact ih (sid + 1) (pos + 1) t h1

theorem addSongs_allOk (s : Store) (viewer pid : Id) (p : Playlist)
    (items : List SongInput)
    (hp : findPlaylist s pid = some p) (hv : p.userId = viewer) :
    addSongs s viewer pid items (items.map (fun _ => true))
      = (201, { s with songs :=
          s.songs ++ buildBatch pid (freshSid s) (nextPosition s pid) items }) := by
  have hlen : (buildBatch pid (freshSid s) (nextPosition s pid) items).length
      = (items.map (fun _ => true)).length := by
    simp [buildBatch_length]
  have hall : ((buildBatch pid (freshSid s) (nextPosition s pid) items).zip
      (items.map (fun _ => true))).all Prod.snd = true := by
    rw [zip_all_snd _ _ hlen]
    simp
  have hmain : addSongs s viewer pid items (items.map (fun _ => true)) =
      ((if ((buildBatch pid (freshSid s) (nextPosition s pid) items).zip
            (items.map (fun _ => true))).all Prod.snd then 201 else 500),
        { s with songs := s.songs ++
            ((((buildBatch pid (freshSid s) (nextPosition s pid) items).zip
              (items.map (fun _ => true))).filter Prod.snd).map Prod.fst) }) := by
    simp [addSongs, hp, hv]
  rw [hmain, if_pos hall, zip_filter_snd_all _ _ hlen hall]

theorem le_foldr_max (l : List Nat) : ∀ x ∈ l, x ≤ l.foldr max 0 := by
  induction l with
  | nil => intro x hx; cases hx
  | cons b t ih =>
    intro x hx
    rcases List.mem_cons.mp hx with h1 | h1
    · rw [h1, List.foldr_cons]
      exact le_max_left _ _
    · have := ih x h1
      rw [List.foldr_cons]
      exact le_trans this (le_max_right _ _)

theorem freshSid_gt (s : Store) : ∀ x ∈ s.songs.map Song.sid, x < freshSid s := by
  intro x hx
  have hle := le_foldr_max _ x hx
  unfold freshSid
  exact Nat.lt_succ_of_le hle

theorem posRange_append (n k : Nat) :
    posRange n ++ List.range' (n + 1) k = posRange (n + k) := by
  unfold posRange
  have h := List.range'_append 1 n k 1
  have h1 : 1 + 1 * n = n + 1 := by omega
  rw [h1] at h
  rw [h]
  congr 1
  omega

theorem delete_store_sid_nodup (s : Store) (d grp : Id)
    (hn : (s.songs.map Song.sid).Nodup) :
    (((((s.songs.filter (fun t => t.sid ≠ d)).filter (fun t => t.playlistId ≠ grp))
        ++ renumberFrom 1 (sortByLe posLe
            (playlistSongs { s with songs := s.songs.filter (fun t => t.sid ≠ d) } grp))).map
        Song.sid)).Nodup := by
  have h1 : ((sortByLe posLe
      (playlistSongs { s with songs := s.songs.filter (fun t => t.sid ≠ d) } grp)).map
        Song.sid).Perm
      ((playlistSongs { s with songs := s.songs.filter (fun t => t.sid ≠ d) } grp).map
        Song.sid) :=
    (sortByLe_perm posLe _).map Song.sid
  have hcongr : (s.songs.filter (fun t => t.sid ≠ d)).filter
        (fun t => !(decide (t.playlistId ≠ grp)))
      = playlistSongs { s with songs := s.songs.filter (fun t => t.sid ≠ d) } grp := by
    simp only [playlistSongs]
    apply List.filter_congr
    intro x _
    by_cases hx : x.playlistId = grp <;> simp [hx]
  have h2 : (((s.songs.filter (fun t => t.sid ≠ d)).filter (fun t => t.playlistId ≠ grp))
      ++ playlistSongs { s with songs := s.songs.filter (fun t => t.sid ≠ d) } grp).Perm
      (s.songs.filter (fun t => t.sid ≠ d)) := by
    have hfap := List.filter_append_perm (fun t => decide (t.playlistId ≠ grp))
      (s.songs.filter (fun t => t.sid ≠ d))
    rw [hcongr] at hfap
    exact hfap
  have hperm : ((((s.songs.filter (fun t => t.sid ≠ d)).filter
        (fun t => t.playlistId ≠ grp))
      ++ renumberFrom 1 (sortByLe posLe
          (playlistSongs { s with songs := s.songs.filter (fun t => t.sid ≠ d) } grp))).map
      Song.sid).Perm
      ((s.songs.filter (fun t => t.sid ≠ d)).map Song.sid) := by
    rw [List.map_append, renumberFrom_map_sid]
    refine (List.Perm.append_left _ h1).trans ?_
    rw [← List.map_append]
    exact h2.map Song.sid
  have hsub : ((s.songs.filter (fun t => t.sid ≠ d)).map Song.sid).Sublist
      (s.songs.map Song.sid) :=
    (List.filter_sublist _).map Song.sid
  exact (hperm.nodup_iff).mpr (hsub.nodup hn)

theorem playlistSongs_after_delete_other (s : Store) (d : Id) (grp pid : Id)
    (song : Song) (hne : grp ≠ pid) (hn : (s.songs.map Song.sid).Nodup)
    (hsong : song ∈ s.songs) (hsid : song.sid = d) (hgrp : song.playlistId = grp) :
    playlistSongs
      { s with
        songs :=
          ((s.songs.filter (fun t => t.sid ≠ d)).filter (fun t => t.playlistId ≠ grp))
            ++ renumberFrom 1 (sortByLe posLe
                (playlistSongs { s with songs := s.songs.filter (fun t => t.sid ≠ d) } grp)) }
      pid
      = playlistSongs s pid := by
  show List.filter _ (_ ++ _) = _
  rw [List.filter_append]
  have hall : ∀ t ∈ sortByLe posLe
      (playlistSongs { s with songs := s.songs.filter (fun t => t.sid ≠ d) } grp),
      t.playlistId = grp := by
    intro t ht
    have htmem := (sortByLe_perm posLe _).mem_iff.mp ht
    simp only [playlistSongs] at htmem
    have := List.of_mem_filter htmem
    simpa using this
  have h2 : (renumberFrom 1 (sortByLe posLe
        (playlistSongs { s with songs := s.songs.filter (fun t => t.sid ≠ d) } grp))).filter
      (fun t => t.playlistId == pid) = [] := by
    apply List.filter_eq_nil_iff.mpr
    intro x hx
    have := renumberFrom_playlistId 1 _ grp hall x hx
    simp [this]
    intro hcontra
    exact hne hcontra
  rw [h2, List.append_nil]
  simp only [List.filter_filter]
  show _ = List.filter _ s.songs
  apply List.filter_congr
  intro x hx
  by_cases hpp : x.playlistId = pid
  · have hgg : x.playlistId ≠ grp := by
      rw [hpp]
      exact fun hh => hne hh.symm
    have hss : x.sid ≠ d := by
      intro he
      have hxs : x = song := List.inj_on_of_nodup_map hn hx hsong (by rw [he, hsid])
      apply hne
      rw [← hgrp, hxs] at hgg
      exact absurd rfl hgg
    simp [hpp, hgg, hss]
    exact fun hh => hne hh.symm
  · simp [hpp]

theorem applyOp_invariants (viewer pid : Id) (s s' : Store) (op : OwnerOp)
    (h : applyOp viewer pid s op = .ok s')
    (hn : (s.songs.map Song.sid).Nodup)
    (hd : DensePositions (playlistSongs s pid)) :
    ((s'.songs.map Song.sid).Nodup) ∧ DensePositions (playlistSongs s' pid) := by
  cases op with
  | addOne it =>
    cases hfp : findPlaylist s pid with
    | none => simp [applyOp, addSong, hfp] at h
    | some p =>
      by_cases hv : p.userId = viewer
      · have heq := addSong_eq s viewer pid p it hfp hv
        simp only [applyOp] at h
        rw [heq] at h
        have hs' : s' =
            { s with
              songs := s.songs ++ [mkSong pid (freshSid s) (nextPosition s pid) it] } := by
          cases h
          rfl
        subst hs'
        constructor
        · show ((s.songs ++ [mkSong pid (freshSid s) (nextPosition s pid) it]).map
            Song.sid).Nodup
          rw [List.map_append]
          rw [List.nodup_append]
          refine ⟨hn, by simp, ?_⟩
          intro a ha hb
          have h1 := freshSid_gt s a ha
          have h2 : a = freshSid s := by simpa [mkSong_sid] using hb
          rw [h2] at h1
          exact lt_irrefl _ h1
        · have hps :
              playlistSongs
                { s with
                  songs := s.songs ++ [mkSong pid (freshSid s) (nextPosition s pid) it] }
                pid
              = playlistSongs s pid
                ++ [mkSong pid (freshSid s) (nextPosition s pid) it] := by
            rw [playlistSongs_append]
            simp [mkSong_playlistId]
          unfold DensePositions
          rw [hps, List.map_append, List.length_append]
          have hnext := nextPosition_of_perm s pid (playlistSongs s pid).length hd
          simp only [List.map_cons, List.map_nil, List.length_cons, List.length_nil,
            mkSong_position, hnext]
          rw [posRange_concat]
          exact hd.append_right _
      · have hval : applyOp viewer pid s (OwnerOp.addOne it) = .error 403 := by
          simp [applyOp, addSong, hfp, hv]
        rw [hval] at h
        cases h
  | addMany items =>
    cases hfp : findPlaylist s pid with
    | none =>
      have hval : applyOp viewer pid s (OwnerOp.addMany items) = .error 404 := by
        simp [applyOp, addSongs, hfp]
      rw [hval] at h
      cases h
    | some p =>
      by_cases hv : p.userId = viewer
      · have heq := addSongs_allOk s viewer pid p items hfp hv
        simp only [applyOp, heq] at h
        have hs' : s' =
            { s with
              songs := s.songs ++ buildBatch pid (freshSid s) (nextPosition s pid) items } := by
          simp at h
          exact h.symm
        subst hs'
        constructor
        · show ((s.songs ++ buildBatch pid (freshSid s) (nextPosition s pid) items).map
            Song.sid).Nodup
          rw [List.map_append, buildBatch_map_sid, List.nodup_append]
          refine ⟨hn, List.nodup_range' _ _, ?_⟩
          intro a ha hb
          have h1 := freshSid_gt s a ha
          have h2 := (List.mem_range'_1.mp hb).1
          exact absurd h1 (not_lt.mpr h2)
        · have hbf : (buildBatch pid (freshSid s) (nextPosition s pid) items).filter
              (fun t => t.playlistId == pid)
              = buildBatch pid (freshSid s) (nextPosition s pid) items := by
            apply List.filter_eq_self.mpr
            intro x hx
            simp [buildBatch_playlistId pid _ _ items x hx]
          have hps :
              playlistSongs
                { s with
                  songs := s.songs ++ buildBatch pid (freshSid s) (nextPosition s pid) items }
                pid
              = playlistSongs s pid
                ++ buildBatch pid (freshSid s) (nextPosition s pid) items := by
            rw [playlistSongs_append, hbf]
          unfold DensePositions
          rw [hps, List.map_append, List.length_append]
          have hnext := nextPosition_of_perm s pid (playlistSongs s pid).length hd
          rw [buildBatch_map_position, hnext, buildBatch_length]
          rw [← posRange_append (playlistSongs s pid).length items.length]
          exact hd.append_right _
      · have hval : applyOp viewer pid s (OwnerOp.addMany items) = .error 403 := by
          simp [applyOp, addSongs, hfp, hv]
        rw [hval] at h
        cases h
  | delOne d =>
    cases hf : s.songs.find? (fun t => t.sid == d) with
    | none => simp [applyOp, deleteSong, hf] at h
    | some song =>
      cases hpl : findPlaylist s song.playlistId with
      | none => simp [applyOp, deleteSong, hf, hpl] at h
      | some p =>
        by_cases hv : p.userId = viewer
        · have heq := deleteSong_eq s viewer d song p hf hpl hv
          simp only [applyOp] at h
          rw [heq] at h
          have hs' : s' =
              { s with
                songs :=
                  ((s.songs.filter (fun t => t.sid ≠ d)).filter
                      (fun t => t.playlistId ≠ song.playlistId))
                    ++ renumberFrom 1 (sortByLe posLe
                        (playlistSongs { s with songs := s.songs.filter (fun t => t.sid ≠ d) }
                          song.playlistId)) } := by
            cases h
            rfl
          subst hs'
          refine ⟨delete_store_sid_nodup s d song.playlistId hn, ?_⟩
          by_cases hgrp : song.playlistId = pid
          · rw [hgrp]
            rw [playlistSongs_after_delete s d pid]
            unfold DensePositions
            rw [renumberFrom_map_position, renumberFrom_length]
            exact List.Perm.refl _
          · rw [playlistSongs_after_delete_other s d song.playlistId pid song hgrp hn
              (List.mem_of_find?_eq_some hf) (by simpa using List.find?_some hf) rfl]
            exact hd
        · have hval : applyOp viewer pid s (OwnerOp.delOne d) = .error 403 := by
            simp [applyOp, deleteSong, hf, hpl, hv]
          rw [hval] at h
          cases h

theorem applyOps_invariants (viewer pid : Id) (ops : List OwnerOp) :
    ∀ (s s' : Store), applyOps viewer pid s ops = .ok s' →
      (s.songs.map Song.sid).Nodup →
      DensePositions (playlistSongs s pid) →
      ((s'.songs.map Song.sid).Nodup) ∧ DensePositions (playlistSongs s' pid) := by
  induction ops with
  | nil =>
    intro s s' h hn hd
    have : s' = s := by
      simp [applyOps] at h
      exact h.symm
    subst this
    exact ⟨hn, hd⟩
  | cons op ops ih =>
    intro s s' h hn hd
    rw [applyOps] at h
    cases happ : applyOp viewer pid s op with
    | error e => rw [happ] at h; cases h
    | ok s1 =>
      rw [happ] at h
      obtain ⟨hn1, hd1⟩ := applyOp_invariants viewer pid s s1 op happ hn hd
      exact ih s1 s' h hn1 hd1

/-- C7 counterexample: a successful `reorderSongs` call that moves the song
at position 1 to position 5 (its id belongs to the playlist, so the 400
check passes) leaves positions `{5, 2}` — not a dense `1..N` sequence. -/
theorem C7_counterexample :
    (reorderSongs egStoreSongs 1 11 [(100, 5)]).fst = 200
  ∧ ¬ DensePositions (playlistSongs (reorderSongs egStoreSongs 1 11 [(100, 5)]).snd 11) :=
  ⟨by decide, by decide⟩

/-- C7 (amended): for every playlist and every sequence of successful
`addSong`, batch `addSongs` and `deleteSong` mutations by its owner, the
positions of the playlist's songs always form a dense sequence `1..N` (as a
set) — but `reorderSongs` writes the client-supplied positions unchecked, so
a successful reorder can leave gaps or duplicates and is not covered by the
invariant. -/
theorem C7_dense_without_reorder (viewer pid : Id) (ops : List OwnerOp)
    (s s' : Store) (hn : (s.songs.map Song.sid).Nodup)
    (hd : DensePositions (playlistSongs s pid))
    (h : applyOps viewer pid s ops = .ok s') :
    DensePositions (playlistSongs s' pid) :=
  (applyOps_invariants viewer pid ops s s' h hn hd).2

/-- C7 witness: add one song, batch-add another, delete the first — the
surviving playlist is dense. -/
theorem C7_dense_without_reorder_witness :
    DensePositions (playlistSongs (exceptGetD
      (applyOps 1 11 egStore2
        [OwnerOp.addOne egSongInputA, OwnerOp.addMany [egSongInputB], OwnerOp.delOne 1])
      egStore2) 11) :=
  C7_dense_without_reorder 1 11
    [OwnerOp.addOne egSongInputA, OwnerOp.addMany [egSongInputB], OwnerOp.delOne 1]
    egStore2 _ (by decide) (by decide) rfl

/-! ## C10 — responses are independent of passwordHash -/

theorem map_filter_scrub_congr {α : Type} (cond : User → Bool) (f : User → α)
    (hc : ∀ u : User, cond (scrubUser u) = cond u)
    (hf : ∀ u : User, f (scrubUser u) = f u) :
    ∀ (l1 l2 : List User), l1.map scrubUser = l2.map scrubUser →
      (l1.filter cond).map f = (l2.filter cond).map f := by
  intro l1
  induction l1 with
  | nil =>
    intro l2 h
    have h2 : l2 = [] := by
      have := h.symm
      simpa using this
    subst h2
    rfl
  | cons a t ih =>
    intro l2 h
    cases l2 with
    | nil => simp at h
    | cons b t2 =>
      simp only [List.map_cons, List.cons.injEq] at h
      obtain ⟨hab, ht⟩ := h
      have hcond : cond a = cond b := by rw [← hc a, hab, hc b]
      have hfab : f a = f b := by rw [← hf a, hab, hf b]
      rw [List.filter_cons, List.filter_cons, ← hcond]
      cases hca : cond a
      · simpa using ih t2 ht
      · simp only [if_true, List.map_cons]
        rw [hfab, ih t2 ht]

theorem find?_map_scrub_congr {α : Type} (cond : User → Bool) (f : User → α)
    (hc : ∀ u : User, cond (scrubUser u) = cond u)
    (hf : ∀ u : User, f (scrubUser u) = f u) :
    ∀ (l1 l2 : List User), l1.map scrubUser = l2.map scrubUser →
      (l1.find? cond).map f = (l2.find? cond).map f := by
  intro l1
  induction l1 with
  | nil =>
    intro l2 h
    have h2 : l2 = [] := by
      have := h.symm
      simpa using this
    subst h2
    rfl
  | cons a t ih =>
    intro l2 h
    cases l2 with
    | nil => simp at h
    | cons b t2 =>
      simp only [List.map_cons, List.cons.injEq] at h
      obtain ⟨hab, ht⟩ := h
      have hcond : cond a = cond b := by rw [← hc a, hab, hc b]
      have hfab : f a = f b := by rw [← hf a, hab, hf b]
      rw [List.find?_cons, List.find?_cons, ← hcond]
      cases hca : cond a
      · simpa using ih t2 ht
      · simp [hfab]

theorem getUserById_congr (s1 s2 : Store)
    (husers : s1.users.map scrubUser = s2.users.map scrubUser) (uid : Id) :
    getUserById s1 uid = getUserById s2 uid := by
  have hfind := find?_map_scrub_congr (fun u => u.uid == uid) toPublic
    (fun u => rfl) (fun u => rfl) s1.users s2.users husers
  unfold getUserById
  cases h1 : s1.users.find? (fun u => u.uid == uid) with
  | none =>
    cases h2 : s2.users.find? (fun u => u.uid == uid) with
    | none => rfl
    | some b =>
      rw [h1, h2] at hfind
      simp at hfind
  | some a =>
    cases h2 : s2.users.find? (fun u => u.uid == uid) with
    | none =>
      rw [h1, h2] at hfind
      simp at hfind
    | some b =>
      rw [h1, h2] at hfind
      simp at hfind
      simp [hfind]

theorem getUserByUsername_congr (s1 s2 : Store)
    (husers : s1.users.map scrubUser = s2.users.map scrubUser) (uname : String) :
    getUserByUsername s1 uname = getUserByUsername s2 uname := by
  have hfind := find?_map_scrub_congr (fun u => u.username == uname) toPublic
    (fun u => rfl) (fun u => rfl) s1.users s2.users husers
  unfold getUserByUsername
  cases h1 : s1.users.find? (fun u => u.username == uname) with
  | none =>
    cases h2 : s2.users.find? (fun u => u.username == uname) with
    | none => rfl
    | some b =>
      rw [h1, h2] at hfind
      simp at hfind
  | some a =>
    cases h2 : s2.users.find? (fun u => u.username == uname) with
    | none =>
      rw [h1, h2] at hfind
      simp at hfind
    | some b =>
      rw [h1, h2] at hfind
      simp at hfind
      simp [hfind]

theorem getMe_congr (s1 s2 : Store)
    (husers : s1.users.map scrubUser = s2.users.map scrubUser) (viewer : Id) :
    getMe s1 viewer = getMe s2 viewer := by
  have hfind := find?_map_scrub_congr (fun u => u.uid == viewer) toPublic
    (fun u => rfl) (fun u => rfl) s1.users s2.users husers
  unfold getMe
  cases h1 : s1.users.find? (fun u => u.uid == viewer) with
  | none =>
    cases h2 : s2.users.find? (fun u => u.uid == viewer) with
    | none => rfl
    | some b =>
      rw [h1, h2] at hfind
      simp at hfind
  | some a =>
    cases h2 : s2.users.find? (fun u => u.uid == viewer) with
    | none =>
      rw [h1, h2] at hfind
      simp at hfind
    | some b =>
      rw [h1, h2] at hfind
      simp at hfind
      simp [hfind]

/-- C10: every user-returning read path excludes the password hash at the
query (`select('-passwordHash')` / `$project`), so responses are a function
of the hash-scrubbed store: two stores that agree after scrubbing every
user's `passwordHash` produce identical responses from the user listing,
the user lookups, the current-user endpoint, the playlist listing that
embeds the owner, and universal search. -/
theorem C10_passwordHash_noninterference (s1 s2 : Store)
    (h : scrubStore s1 = scrubStore s2) :
    (∀ (search : Option String) (page limit : Nat),
        getUsersList s1 search page limit = getUsersList s2 search page limit)
  ∧ (∀ uid : Id, getUserById s1 uid = getUserById s2 uid)
  ∧ (∀ uname : String, getUserByUsername s1 uname = getUserByUsername s2 uname)
  ∧ (∀ viewer : Id, getMe s1 viewer = getMe s2 viewer)
  ∧ (∀ (viewer userParam : Option Id) (tag : Option String) (sort : String)
        (page limit : Nat),
        getPlaylistsList s1 viewer userParam tag sort page limit
          = getPlaylistsList s2 viewer userParam tag sort page limit)
  ∧ (∀ (viewer : Option Id) (q ty : String) (limit offset : Nat),
        universalSearch s1 viewer q ty limit offset
          = universalSearch s2 viewer q ty limit offset) := by
  have husers : s1.users.map scrubUser = s2.users.map scrubUser := by
    have h2 := congrArg Store.users h
    simpa [scrubStore] using h2
  have hpl : s1.playlists = s2.playlists := by
    have h2 := congrArg Store.playlists h
    simpa [scrubStore] using h2
  have hsongs : s1.songs = s2.songs := by
    have h2 := congrArg Store.songs h
    simpa [scrubStore] using h2
  have hlikes : s1.likes = s2.likes := by
    have h2 := congrArg Store.likes h
    simpa [scrubStore] using h2
  have hsaves : s1.saves = s2.saves := by
    have h2 := congrArg Store.saves h
    simpa [scrubStore] using h2
  have hps : ∀ pid, playlistSongs s1 pid = playlistSongs s2 pid := by
    intro pid
    unfold playlistSongs
    rw [hsongs]
  have htpi : ∀ viewer : Option Id, toPlaylistItem s1 viewer = toPlaylistItem s2 viewer := by
    intro viewer
    funext p
    have h1 := find?_map_scrub_congr (fun u => u.uid == p.userId) User.username
      (fun u => rfl) (fun u => rfl) s1.users s2.users husers
    have h2 := find?_map_scrub_congr (fun u => u.uid == p.userId) User.avatarUrl
      (fun u => rfl) (fun u => rfl) s1.users s2.users husers
    simp only [toPlaylistItem]
    rw [h1, h2, hps p.pid, hlikes, hsaves]
  have htsp : ∀ viewer : Option Id,
      toSearchPlaylist s1 viewer = toSearchPlaylist s2 viewer := by
    intro viewer
    funext p
    have h1 := find?_map_scrub_congr (fun u => u.uid == p.userId) User.username
      (fun u => rfl) (fun u => rfl) s1.users s2.users husers
    simp only [toSearchPlaylist]
    rw [h1, hps p.pid, hlikes, hsaves]
  refine ⟨?_, ?_, ?_, ?_, ?_, ?_⟩
  · intro search page limit
    cases search with
    | none =>
      simp only [getUsersList]
      rw [map_filter_scrub_congr (fun _ => true) toPublic (fun u => rfl) (fun u => rfl)
        s1.users s2.users husers]
    | some q =>
      simp only [getUsersList]
      rw [map_filter_scrub_congr (userMatches q) toPublic (fun u => rfl) (fun u => rfl)
        s1.users s2.users husers]
  · intro uid
    exact getUserById_congr s1 s2 husers uid
  · intro uname
    exact getUserByUsername_congr s1 s2 husers uname
  · intro viewer
    exact getMe_congr s1 s2 husers viewer
  · intro viewer userParam tag sort page limit
    simp only [getPlaylistsList]
    rw [hpl, htpi viewer]
  · intro viewer q ty limit offset
    simp only [universalSearch]
    rw [map_filter_scrub_congr (userMatches q) toPublic (fun u => rfl) (fun u => rfl)
      s1.users s2.users husers]
    rw [hpl, htsp viewer]

/-- C10 witness: two stores whose only difference is the owner's password
hash answer the user listing and the user lookup identically. -/
theorem C10_passwordHash_noninterference_witness :
    getUsersList egStore2 none 1 20 = getUsersList egStore2Alt none 1 20
  ∧ getUserById egStore2 1 = getUserById egStore2Alt 1 :=
  ⟨(C10_passwordHash_noninterference egStore2 egStore2Alt (by decide)).1 none 1 20,
   (C10_passwordHash_noninterference egStore2 egStore2Alt (by decide)).2.1 1⟩

end VibeShare
